import Mathlib

/-!
Verification of the `kbc_storage_daemon` event-driven sync engine.

The definitions below are a shallow embedding of the Python sources:
`daemon/watcher.py` (event dispatcher, per-path concurrency guard,
compression gating, temp-file cleanup), `daemon/sync_handlers.py`
(FullLoad / Incremental sync handlers), `daemon/utils.py`
(`with_retries`, `compress_file`) and `daemon/storage_client.py`
(class-body evaluation).  Remote storage is treated as an external
gateway: its operations are recorded as `GCall` values together with
the arguments the code passes.
-/

namespace KbcDaemon

/-! ## Remote gateway calls (contract of `storage_client.StorageClient`) -/

/-- One call made to the remote storage gateway, with the arguments the
code passes at the call site. -/
inductive GCall where
  | bucketExists (bucketId : String)
  | createBucket (bucketId bucketName : String)
  | tableExists (bucketId tableId : String)
  | createTable (bucketId tableId uploadPath : String)
  | loadTable (bucketId tableId uploadPath : String) (incremental : Bool)
deriving DecidableEq, Repr

def GCall.isLoad : GCall → Bool
  | .loadTable _ _ _ _ => true
  | _ => false

def GCall.isCreateTable : GCall → Bool
  | .createTable _ _ _ => true
  | _ => false

/-! ## Compression gate

`utils.compress_file` (utils.py lines 177-241): compresses the file to a
fresh `.gz` temp file when `file_size > threshold_bytes`, otherwise
returns `None`.  We model the produced artifact by its temp path name. -/

def tempGzName : String := "/tmp/upload_tmp.gz"

/-- Embedding of `utils.compress_file`: `some` temp path iff the file
size strictly exceeds the threshold (utils.py line 196). -/
def compress_file (fileSize thresholdBytes : Nat) : Option String :=
  if fileSize > thresholdBytes then some tempGzName else none

/-- Embedding of the compression gate inside
`StorageEventHandler._handle_file_created` (watcher.py lines 308-330):
start from the original path with `is_compressed = False`; when the size
exceeds the threshold call `compress_file` and, if it returned a path,
switch to it with `is_compressed = True`. -/
def prepare_upload (origPath : String) (fileSize thresholdBytes : Nat) :
    String × Bool :=
  if fileSize > thresholdBytes then
    match compress_file fileSize thresholdBytes with
    | some p => (p, true)
    | none => (origPath, false)
  else (origPath, false)

/-! ## FullLoadHandler (sync_handlers.py lines 78-157) -/

/-- Result of one sync-handler invocation: the gateway calls it made and
whether it re-raised a `StorageError`. -/
structure HandlerResult where
  calls : List GCall
  raised : Bool
deriving DecidableEq, Repr

/-- Embedding of `FullLoadHandler.handle_modified` (sync_handlers.py
lines 120-157): always a single `load_table(..., is_incremental=False)`
call; a `StorageError` from the gateway is logged and re-raised. -/
def fullLoadHandleModified (bucketId tableId filePath : String)
    (remoteOk : Bool) : HandlerResult :=
  { calls := [GCall.loadTable bucketId tableId filePath false]
    raised := !remoteOk }

/-- Gateway calls made by a sequence of `n` `handle_modified` invocations
of `FullLoadHandler`, the k-th with remote outcome `outcomes k`. -/
def fullLoadModifiedSeq (bucketId tableId filePath : String)
    (outcomes : Nat → Bool) (n : Nat) : List GCall :=
  (List.range n).flatMap
    (fun k => (fullLoadHandleModified bucketId tableId filePath (outcomes k)).calls)

/-! ## Python `csv.writer` rendering of the incremental slice

`IncrementalHandler.handle_modified` (sync_handlers.py lines 268-276)
writes the new lines with `csv.writer(temp_file).writerows(new_lines)`
where `new_lines` is a list of *strings*.  `writerows` treats each
string as a row, i.e. as a sequence of one-character fields, rendered
with the default `excel` dialect: delimiter `,`, quote char `"`,
minimal quoting, row terminator `\r\n`, doubled quotes. -/

def csvNeedsQuote (c : Char) : Bool :=
  c = ',' || c = '"' || c = '\n' || c = '\r'

/-- One single-character field as the `excel` dialect writes it. -/
def csvFieldOfChar (c : Char) : String :=
  if c = '"' then "\"\"\"\""
  else if csvNeedsQuote c then "\"" ++ String.singleton c ++ "\""
  else String.singleton c

/-- One row of `writerows` when the "row" is a Python string. -/
def csvRowOfString (s : String) : String :=
  String.intercalate "," (s.toList.map csvFieldOfChar) ++ "\r\n"

/-- The whole temp-file content produced by
`csv.writer(...).writerows(rows)` on a list of strings. -/
def csvWriterOutput (rows : List String) : String :=
  String.join (rows.map csvRowOfString)

/-! ## IncrementalHandler (sync_handlers.py lines 159-301)

A file is represented by the list of its lines without the trailing
newline; the file is assumed newline-terminated, so Python's line
iteration yields each line with a `'\n'` appended.
`_count_lines` is the length of that list.  The per-path watermark
`_processed_lines.get(path, 0)` is passed in as `processed`. -/

def tempSliceName : String := "/tmp/slice_tmp.csv"

/-- Embedding of `IncrementalHandler._read_new_lines` (sync_handlers.py
lines 171-192): nothing when `start_line >= total_lines`, else the lines
after the first `start_line` ones (as Python yields them, with the
newline kept). -/
def readNewLines (fileLines : List String) (processed : Nat) :
    List String × Nat :=
  let total := fileLines.length
  if processed ≥ total then ([], total)
  else ((fileLines.drop processed).map (fun l => l ++ "\n"), total)

/-- Result of one `IncrementalHandler.handle_modified` invocation. -/
structure IncResult where
  /-- Gateway calls made, in order. -/
  calls : List GCall
  /-- The watermark stored for the path afterwards. -/
  processed : Nat
  /-- Content written to the temp slice file, when one was created. -/
  payload : Option String
  /-- Whether the invocation re-raised a `StorageError`. -/
  raised : Bool
  /-- Temp files present on disk afterwards. -/
  disk : List String
deriving DecidableEq, Repr

/-- Embedding of `IncrementalHandler.handle_modified` (sync_handlers.py
lines 237-301): read the new lines; if none, return without any gateway
call; else write them through `csv.writer` into a fresh temp file, call
`load_table(..., is_incremental=True)` on it, on success store
`processed := total`; the `finally` block deletes the registered temp
file on both exit paths. -/
def incHandleModified (bucketId tableId : String) (fileLines : List String)
    (processed : Nat) (remoteOk : Bool) (disk : List String) : IncResult :=
  let (newLines, total) := readNewLines fileLines processed
  if newLines.isEmpty then
    { calls := [], processed := processed, payload := none
      raised := false, disk := disk }
  else
    let payload := csvWriterOutput newLines
    let diskWithTemp := tempSliceName :: disk
    let diskFinal := diskWithTemp.filter (fun f => f ≠ tempSliceName)
    { calls := [GCall.loadTable bucketId tableId tempSliceName true]
      processed := if remoteOk then total else processed
      payload := some payload
      raised := !remoteOk
      disk := diskFinal }

/-- Payload the specification prescribes for an incremental load: the
original header line followed by the new rows, newline-terminated. -/
def specIncrementalPayload (header : String) (newRows : List String) : String :=
  String.join ((header :: newRows).map (fun l => l ++ "\n"))

/-! ## Watcher event pipeline (watcher.py)

A file event's path is represented by the components of its containing
directory plus the file name, so `Path.parent.parent.name` is the
second-to-last directory component. -/

/-- The `recursive` argument passed to `observer.schedule` in
`DirectoryWatcher.start` (watcher.py line 569). -/
def observerScheduleRecursive : Bool := true

/-- Path of a file event: directory components of `Path.parent`, then
the file name itself. -/
structure EventPath where
  dirs : List String
  fileName : String
deriving DecidableEq, Repr

/-- `Path.parent.parent.name` of the event path. -/
def EventPath.parentParentName (e : EventPath) : String :=
  (e.dirs.dropLast).getLastD ""

/-- `Path.parent.name` of the event path (the containing directory). -/
def EventPath.parentName (e : EventPath) : String :=
  e.dirs.getLastD ""

/-- Split a character list on a separator; mirrors `str.split(sep)`. -/
def splitOnChar (sep : Char) : List Char → List (List Char)
  | [] => [[]]
  | c :: cs =>
    let r := splitOnChar sep cs
    if c = sep then [] :: r
    else
      match r with
      | [] => [[c]]
      | g :: gs => (c :: g) :: gs

/-- Character-wise lower-casing (`str.lower` for the ASCII names the
daemon handles). -/
def strToLower (s : String) : String :=
  (s.toList.map Char.toLower).asString

/-- `pathlib.Path.suffix` of a file name: the final `"." ++ ext` part,
empty when there is no dot or only a leading one. -/
def pathSuffix (name : String) : String :=
  match splitOnChar '.' name.toList with
  | [] => ""
  | [_] => ""
  | [[], _] => ""
  | ps => "." ++ (ps.getLastD []).asString

/-- `pathlib.Path.stem` of a file name: everything before the suffix. -/
def pathStem (name : String) : String :=
  match splitOnChar '.' name.toList with
  | [] => name
  | [_] => name
  | [[], _] => name
  | ps => (List.intercalate ['.'] ps.dropLast).asString

/-- Embedding of the sanitisation inside
`StorageEventHandler._get_bucket_info` (watcher.py lines 152-158):
lower-case, map non-alphanumeric non-underscore characters to `_`,
then drop empty underscore-separated parts. -/
def sanitizeBucketName (dirName : String) : String :=
  let replaced := dirName.toList.map (fun c =>
    let lc := c.toLower
    if lc.isAlphanum || lc = '_' then lc else '_')
  (List.intercalate ['_']
    ((splitOnChar '_' replaced).filter (fun p => p ≠ []))).asString

/-- Embedding of `StorageEventHandler._get_bucket_info` (watcher.py
lines 142-160): `(bucket_id, bucket_name)` derived from the directory
name. -/
def getBucketInfo (dirName : String) : String × String :=
  let bucketName := sanitizeBucketName dirName
  ("in.c-" ++ bucketName, bucketName)

/-- External circumstances of one watcher event: answers of the gateway
existence checks and of the filesystem probes. -/
structure WatchEnv where
  bucketExists : Bool
  bucketCreateOk : Bool
  tableExists : Bool
  fileReady : Bool
  fileSize : Nat
  thresholdBytes : Nat
deriving DecidableEq, Repr

/-- Embedding of `StorageEventHandler._handle_file_created` (watcher.py
lines 222-373), recording the gateway calls the invocation makes.
`alreadyProcessing` is the outcome of the `_add_to_processing` guard:
when the path is already held the handler returns at once (line 227).
Mirrors the code's order: guard, nested-directory filter
(`parent.parent.name != "watched_directory"`, line 234), `.csv` suffix
filter (line 242), bucket existence check / creation (lines 253-276),
name validity check (line 278), readiness check (line 301), compression
gate (lines 312-330), then `create_table` (line 334). -/
def handleFileCreated (e : EventPath) (env : WatchEnv)
    (alreadyProcessing : Bool) : List GCall :=
  if alreadyProcessing then []
  else if e.parentParentName ≠ "watched_directory" then []
  else if strToLower (pathSuffix e.fileName) ≠ ".csv" then []
  else
    let (bucketId, bucketName) := getBucketInfo e.parentName
    let tableId := pathStem e.fileName
    let bucketCalls :=
      [GCall.bucketExists bucketId] ++
        (if env.bucketExists then [] else [GCall.createBucket bucketId bucketName])
    if !env.bucketExists && !env.bucketCreateOk then bucketCalls
    else if bucketName = "" ∨ tableId = "" then bucketCalls
    else if !env.fileReady then bucketCalls
    else
      let (uploadPath, _) := prepare_upload ("/watched/" ++ e.fileName)
        env.fileSize env.thresholdBytes
      bucketCalls ++ [GCall.createTable bucketId tableId uploadPath]

/-- Embedding of `StorageEventHandler._handle_file_modified` (watcher.py
lines 375-538): same filters and bucket handling as the created path,
then a `table_exists` check — when the table is missing the event is
re-dispatched to `_handle_file_created`, whose guard finds the path
already held and drops it — else a `load_table` call (the client
hardcodes `is_incremental=False`, storage_client.py line 317). -/
def handleFileModified (e : EventPath) (env : WatchEnv)
    (alreadyProcessing : Bool) : List GCall :=
  if alreadyProcessing then []
  else if e.parentParentName ≠ "watched_directory" then []
  else if strToLower (pathSuffix e.fileName) ≠ ".csv" then []
  else
    let (bucketId, bucketName) := getBucketInfo e.parentName
    let tableId := pathStem e.fileName
    let bucketCalls :=
      [GCall.bucketExists bucketId] ++
        (if env.bucketExists then [] else [GCall.createBucket bucketId bucketName])
    if !env.bucketExists && !env.bucketCreateOk then bucketCalls
    else if bucketName = "" ∨ tableId = "" then bucketCalls
    else if !env.fileReady then bucketCalls
    else
      let existsCalls := bucketCalls ++ [GCall.tableExists bucketId tableId]
      if !env.tableExists then
        existsCalls ++ handleFileCreated e env true
      else
        let (uploadPath, _) := prepare_upload ("/watched/" ++ e.fileName)
          env.fileSize env.thresholdBytes
        existsCalls ++ [GCall.loadTable bucketId tableId uploadPath false]

/-- Temp-file bookkeeping of `_handle_file_created` (watcher.py lines
308-361): when a compressed copy was produced it is registered, and the
`finally` block around `create_table` removes it from disk whether the
call succeeded or raised. -/
def watcherCreatedFinalDisk (isCompressed remoteOk : Bool)
    (disk : List String) : Bool × List String :=
  let disk1 := if isCompressed then tempGzName :: disk else disk
  match remoteOk with
  | true => (false, if isCompressed then disk1.filter (fun f => f ≠ tempGzName) else disk1)
  | false => (true, if isCompressed then disk1.filter (fun f => f ≠ tempGzName) else disk1)

/-! ## Spec-modelled CSV dialect detection

The repository contains no CSV analyzer in the event pipeline; spec
section 4.5 describes one. -/

/-- Modelled from the spec: the CSV Analyzer's dialect detection
(spec section 4.5, absent from the source pipeline).  A candidate
delimiter is detected when every sampled line splits into the same
number of fields and that number is at least two; inconsistent field
counts over the first lines yield no dialect. -/
def specDetectDialect (sampleLines : List String) : Option Char :=
  [',', ';', '\t', '|'].find? (fun d =>
    match sampleLines.map (fun l => (splitOnChar d l.toList).length) with
    | [] => false
    | n :: rest => n ≥ 2 && rest.all (fun m => m = n))

/-! ## Retry executor (`utils.with_retries`, utils.py lines 22-79)

Delays are modelled as rationals.  An operation is a function from the
0-based attempt index to its outcome, which makes the attempt-dependent
behaviour of the wrapped callable explicit. -/

/-- The retry configuration (`with_retries` keyword arguments). -/
structure RetryPolicy where
  maxAttempts : Nat
  initialDelay : ℚ
  maxDelay : ℚ
  backoffFactor : ℚ
deriving DecidableEq, Repr

/-- Observable trace of one `with_retries`-wrapped call: the returned
value or the re-raised last exception, the warnings passed to the logger
as `(attempt index (1-based), error, retry_delay)` triples, and the
`sleep` durations in order. -/
structure RetryTrace (E A : Type) where
  result : Except (Option E) A
  warnings : List (Nat × E × ℚ)
  sleeps : List ℚ

/-- The loop body of `with_retries.wrapper` (utils.py lines 44-76):
`attempt` is the current 0-based index, `remaining` the number of
attempts left, `delay` the current delay.  On failure the warning is
logged with the current delay (when a logger is present), and before
any non-final attempt the wrapper sleeps `delay` and updates
`delay := min (delay * backoff) maxDelay`. -/
def withRetriesGo (op : Nat → Except E A) (backoff maxDelay : ℚ)
    (hasLogger : Bool) :
    (attempt remaining : Nat) → (delay : ℚ) → (last : Option E) →
    RetryTrace E A
  | _, 0, _, last => ⟨.error last, [], []⟩
  | attempt, remaining + 1, delay, _ =>
    match op attempt with
    | .ok v => ⟨.ok v, [], []⟩
    | .error e =>
      let w := if hasLogger then [(attempt + 1, e, delay)] else []
      if remaining = 0 then ⟨.error (some e), w, []⟩
      else
        let rest := withRetriesGo op backoff maxDelay hasLogger
          (attempt + 1) remaining (min (delay * backoff) maxDelay) (some e)
        ⟨rest.result, w ++ rest.warnings, delay :: rest.sleeps⟩

/-- Embedding of a call through `utils.with_retries(max_attempts,
initial_delay, max_delay, backoff_factor, logger)`. -/
def with_retries (op : Nat → Except E A) (p : RetryPolicy)
    (hasLogger : Bool) : RetryTrace E A :=
  withRetriesGo op p.backoffFactor p.maxDelay hasLogger
    0 p.maxAttempts p.initialDelay none

/-- The delay sequence the wrapper steps through:
`delay_0 = initial`, `delay_{k+1} = min (delay_k * backoff) maxDelay`. -/
def delaySeq (initial backoff maxDelay : ℚ) : Nat → ℚ
  | 0 => initial
  | k + 1 => min (delaySeq initial backoff maxDelay k * backoff) maxDelay

/-! ## Concurrency guard (watcher.py lines 90-108, 227, 372-373)

`_add_to_processing` / `_remove_from_processing` run under
`_processing_lock`, so each is one atomic step.  A pipeline invocation
for a path is an automaton: from `idle` it either acquires the guard and
runs, or finds the path held and drops the event; a running invocation
eventually finishes, and its `finally` block releases the path. -/

/-- Embedding of `StorageEventHandler._add_to_processing` (watcher.py
lines 90-103): atomic test-and-set on the processing set. -/
def addToProcessing (p : String) (s : List String) : Bool × List String :=
  if p ∈ s then (false, s) else (true, p :: s)

/-- Embedding of `StorageEventHandler._remove_from_processing`
(watcher.py lines 105-108). -/
def removeFromProcessing (p : String) (s : List String) : List String :=
  s.erase p

/-- Phase of one pipeline invocation. -/
inductive Phase where
  | idle | running | dropped | finished
deriving DecidableEq, Repr

/-- One pipeline invocation: the path of its event and its phase. -/
structure Invoc where
  path : String
  phase : Phase
deriving DecidableEq, Repr

/-- Global guard state: all invocations plus the `_processing` set. -/
structure GuardState where
  procs : List Invoc
  processing : List String
deriving DecidableEq, Repr

/-- Whether an invocation is a running pipeline for path `p`. -/
def isRunningFor (p : String) (i : Invoc) : Bool :=
  i.path = p && i.phase = Phase.running

/-- Atomic steps of the guarded dispatcher.  `acquireOk` and
`acquireBusy` are the two outcomes of `_add_to_processing`; `finish`
covers every way a running invocation ends, since the handler's
`finally` always calls `_remove_from_processing` (watcher.py lines
372-373 and 537-538). -/
inductive GuardStep : GuardState → GuardState → Prop where
  | acquireOk (l r : List Invoc) (p : String) (s : List String) :
      (addToProcessing p s).1 = true →
      GuardStep ⟨l ++ ⟨p, .idle⟩ :: r, s⟩
        ⟨l ++ ⟨p, .running⟩ :: r, (addToProcessing p s).2⟩
  | acquireBusy (l r : List Invoc) (p : String) (s : List String) :
      (addToProcessing p s).1 = false →
      GuardStep ⟨l ++ ⟨p, .idle⟩ :: r, s⟩ ⟨l ++ ⟨p, .dropped⟩ :: r, s⟩
  | finish (l r : List Invoc) (p : String) (s : List String) :
      GuardStep ⟨l ++ ⟨p, .running⟩ :: r, s⟩
        ⟨l ++ ⟨p, .finished⟩ :: r, removeFromProcessing p s⟩

/-- Reflexive-transitive closure of `GuardStep`. -/
inductive GuardReach : GuardState → GuardState → Prop where
  | refl (s : GuardState) : GuardReach s s
  | tail {s t u : GuardState} : GuardReach s t → GuardStep t u → GuardReach s u

/-- Initial state: one pending invocation per event path, empty
processing set. -/
def initState (paths : List String) : GuardState :=
  ⟨paths.map (fun p => ⟨p, .idle⟩), []⟩

/-- The guard invariant: the processing set has no duplicates, and for
every path the number of running invocations is 1 when the path is in
the set and 0 otherwise. -/
def guardInv (g : GuardState) : Prop :=
  g.processing.Nodup ∧
    ∀ p, g.procs.countP (isRunningFor p) =
      if p ∈ g.processing then 1 else 0

/-! ## Import-time evaluation of `storage_client.py`

Evaluating a Python class body executes each decorator expression at
class-creation time; a name in such an expression resolves against the
class-body locals defined so far, then the module globals, then the
builtins, and an unresolved name raises `NameError`.  The statement
lists below transcribe `storage_client.py`. -/

/-- One class-body statement: a plain binding, or a `def` under
decorators whose expressions reference the listed names in evaluation
order. -/
inductive PyStmt where
  | bind (name : String)
  | decoratedDef (decoratorRefs : List String) (name : String)
deriving DecidableEq, Repr

/-- Evaluate a class body: the first decorator reference that resolves
neither in the locals so far nor in the globals nor in the builtins
raises `NameError` with that name, aborting the evaluation; otherwise
the statement binds its name.  Returns the final class locals. -/
def evalClassBody (globalsB builtins : List String) :
    List PyStmt → List String → Except String (List String)
  | [], locals => .ok locals
  | .bind n :: rest, locals => evalClassBody globalsB builtins rest (locals ++ [n])
  | .decoratedDef refs n :: rest, locals =>
    match refs.find? (fun r =>
        !(locals.contains r || globalsB.contains r || builtins.contains r)) with
    | some missing => .error missing
    | none => evalClassBody globalsB builtins rest (locals ++ [n])

/-- Module-level names of `storage_client.py` bound before the
`StorageClient` class body runs (lines 1-18: imports and
`StorageError`). -/
def storageClientGlobals : List String :=
  ["csv", "logging", "Path", "Optional", "List", "Dict", "Any", "Union",
   "Client", "Tables", "with_retries", "StorageError"]

/-- The Python builtins the class body could fall back to. -/
def pythonBuiltins : List String :=
  ["property", "staticmethod", "classmethod", "bool", "str", "int",
   "float", "dict", "list", "any", "Exception"]

/-- The `StorageClient` class body (storage_client.py lines 20-377):
`__init__`, the `@property` `_buckets`, `_verify_connection`, then the
gateway methods, each decorated `@with_retries(logger=logger)`
(lines 77, 103, 159, 184, 217, 285, 346) — the decorator argument
references the name `logger`. -/
def storageClientClassBody : List PyStmt :=
  [.bind "__init__",
   .decoratedDef ["property"] "_buckets",
   .bind "_verify_connection",
   .decoratedDef ["with_retries", "logger"] "bucket_exists",
   .decoratedDef ["with_retries", "logger"] "create_bucket",
   .decoratedDef ["with_retries", "logger"] "get_bucket",
   .decoratedDef ["with_retries", "logger"] "table_exists",
   .decoratedDef ["with_retries", "logger"] "create_table",
   .decoratedDef ["with_retries", "logger"] "load_table",
   .decoratedDef ["with_retries", "logger"] "get_table"]

/-- Result of importing `storage_client.py`: the class locals when the
class body completes, or the `NameError` name when it does not. -/
def storageClientImport : Except String (List String) :=
  evalClassBody storageClientGlobals pythonBuiltins storageClientClassBody []

/-! ## Theorems -/

/-- C7: the compression gate compresses exactly when the file size
strictly exceeds the threshold: at exactly `threshold_bytes` the
original path is kept with `is_compressed = false` and `compress_file`
returns `None`; at `threshold_bytes + 1` a fresh gzip temp file is
returned with `is_compressed = true`. -/
theorem compression_gate_strict_threshold (orig : String) (size threshold : Nat) :
    (compress_file size threshold).isSome = decide (size > threshold) ∧
    compress_file threshold threshold = none ∧
    prepare_upload orig threshold threshold = (orig, false) ∧
    compress_file (threshold + 1) threshold = some tempGzName ∧
    prepare_upload orig (threshold + 1) threshold = (tempGzName, true) := by
  refine ⟨?_, ?_, ?_, ?_, ?_⟩
  · by_cases h : threshold < size <;> simp [compress_file, h]
  · simp [compress_file]
  · simp [prepare_upload]
  · simp [compress_file]
  · simp [prepare_upload, compress_file]

/-- `countP` over a constant list. -/
theorem countP_replicate (p : α → Bool) (a : α) (n : Nat) :
    (List.replicate n a).countP p = if p a then n else 0 := by
  induction n with
  | zero => simp
  | succ m ih => by_cases h : p a <;> simp [List.replicate_succ, List.countP_cons, ih, h]

/-- C5: a sequence of `n` `FullLoadHandler.handle_modified` invocations
makes exactly `n` `load_table` calls with `incremental = false` and no
`create_table` call, whatever each remote outcome is. -/
theorem full_load_n_modifications (bucketId tableId filePath : String)
    (outcomes : Nat → Bool) (n : Nat) :
    fullLoadModifiedSeq bucketId tableId filePath outcomes n =
      List.replicate n (GCall.loadTable bucketId tableId filePath false) ∧
    (fullLoadModifiedSeq bucketId tableId filePath outcomes n).countP
      GCall.isLoad = n ∧
    (fullLoadModifiedSeq bucketId tableId filePath outcomes n).countP
      GCall.isCreateTable = 0 := by
  have hrepl : fullLoadModifiedSeq bucketId tableId filePath outcomes n =
      List.replicate n (GCall.loadTable bucketId tableId filePath false) := by
    induction n with
    | zero => simp [fullLoadModifiedSeq]
    | succ m ih =>
      rw [fullLoadModifiedSeq, List.range_succ, List.flatMap_append,
        ← fullLoadModifiedSeq, ih, List.replicate_succ']
      simp [fullLoadHandleModified]
  refine ⟨hrepl, ?_, ?_⟩ <;> rw [hrepl, countP_replicate] <;> simp [GCall.isLoad,
    GCall.isCreateTable]

/-- C10: evaluating the `StorageClient` class body raises `NameError`
for the unbound name `logger` referenced by the
`@with_retries(logger=logger)` decorators, so importing
`storage_client.py` fails and no `StorageClient` operation can ever be
invoked. -/
theorem storage_client_import_name_error :
    storageClientImport = Except.error "logger" := by rfl

/-- C2 (code bug): with watermark 3 on a file holding the header
`id,name,price` and five data rows, `IncrementalHandler.handle_modified`
does call `load_table` exactly once with `incremental = true`, but the
temp file's content is the `csv.writer` character-splitting of the last
three raw lines — not the header followed by the two appended rows —
and the stored watermark becomes 6, not 5. -/
theorem incremental_payload_diverges :
    (incHandleModified "in.c-shop" "sales"
        ["id,name,price", "1,a,10", "2,b,20", "3,c,30", "4,d,40", "5,e,50"]
        3 true []).calls =
      [GCall.loadTable "in.c-shop" "sales" tempSliceName true] ∧
    (incHandleModified "in.c-shop" "sales"
        ["id,name,price", "1,a,10", "2,b,20", "3,c,30", "4,d,40", "5,e,50"]
        3 true []).payload ≠
      some (specIncrementalPayload "id,name,price" ["4,d,40", "5,e,50"]) ∧
    (incHandleModified "in.c-shop" "sales"
        ["id,name,price", "1,a,10", "2,b,20", "3,c,30", "4,d,40", "5,e,50"]
        3 true []).processed = 6 := by
  refine ⟨by rfl, by decide, by rfl⟩

/-- C4 (code bug): the event pipeline contains no CSV analysis at all.
The sample `a,b,c` / `1,2` has inconsistent field counts, so the
spec-modelled analyzer detects no dialect, yet the creation handler
still calls `create_table` and the modification handler still calls
`load_table` for such a file. -/
theorem csv_analyzer_absent_remote_call_made :
    specDetectDialect ["a,b,c", "1,2"] = none ∧
    handleFileCreated ⟨["home", "watched_directory", "shop"], "sales.csv"⟩
        ⟨true, true, false, true, 10, 100⟩ false =
      [GCall.bucketExists "in.c-shop",
       GCall.createTable "in.c-shop" "sales" "/watched/sales.csv"] ∧
    handleFileModified ⟨["home", "watched_directory", "shop"], "sales.csv"⟩
        ⟨true, true, true, true, 10, 100⟩ false =
      [GCall.bucketExists "in.c-shop",
       GCall.tableExists "in.c-shop" "sales",
       GCall.loadTable "in.c-shop" "sales" "/watched/sales.csv" false] := by
  refine ⟨by rfl, by decide, by decide⟩

/-- C9 (counterexample): the observer subscribes with
`recursive = True`, a `.csv` file inside a subdirectory of a directory
named `watched_directory` *is* processed, and a `.csv` file directly
under the watched directory is *not*. -/
theorem watcher_scope_counterexample :
    observerScheduleRecursive = true ∧
    handleFileCreated ⟨["home", "watched_directory", "sub"], "a.csv"⟩
        ⟨true, true, false, true, 10, 100⟩ false ≠ [] ∧
    handleFileCreated ⟨["home", "watched_directory"], "a.csv"⟩
        ⟨true, true, false, true, 10, 100⟩ false = [] := by
  refine ⟨by rfl, by decide, by rfl⟩

/-- C9 (amended): the watcher schedules recursively, and a creation
event drives the pipeline exactly when the file name's suffix
lower-cases to `.csv` and the file's grandparent directory component is
named `watched_directory`, i.e. the file sits in an immediate
subdirectory of a directory named `watched_directory`; files directly
under the watched directory and deeper-nested files are ignored. -/
theorem watcher_scope_amended (dirs : List String) (name : String)
    (env : WatchEnv) :
    observerScheduleRecursive = true ∧
    (handleFileCreated ⟨dirs, name⟩ env false).isEmpty =
      !((EventPath.parentParentName ⟨dirs, name⟩ == "watched_directory") &&
        (strToLower (pathSuffix name) == ".csv")) ∧
    (handleFileModified ⟨dirs, name⟩ env false).isEmpty =
      !((EventPath.parentParentName ⟨dirs, name⟩ == "watched_directory") &&
        (strToLower (pathSuffix name) == ".csv")) := by
  refine ⟨rfl, ?_, ?_⟩ <;>
    by_cases h1 : EventPath.parentParentName ⟨dirs, name⟩ = "watched_directory"
  · by_cases h2 : strToLower (pathSuffix name) = ".csv"
    · simp only [handleFileCreated, h1, h2, beq_iff_eq]
      simp only [ne_eq, not_true_eq_false, Bool.false_eq_true, if_false, ite_false]
      split
      · simp_all
      · split <;> split <;> simp_all
    · simp [handleFileCreated, h1, h2, beq_iff_eq]
  · simp [handleFileCreated, h1, beq_iff_eq]
  · by_cases h2 : strToLower (pathSuffix name) = ".csv"
    · simp only [handleFileModified, h1, h2, beq_iff_eq]
      simp only [ne_eq, not_true_eq_false, Bool.false_eq_true, if_false, ite_false]
      repeat' split
      all_goals simp_all
    · simp [handleFileModified, h1, h2, beq_iff_eq]
  · simp [handleFileModified, h1, beq_iff_eq]

/-- `IncrementalHandler.handle_modified` is a no-op whenever the file
has not grown past the stored watermark. -/
theorem incHandleModified_noop (bucketId tableId : String)
    (fileLines : List String) (processed : Nat) (ok : Bool)
    (disk : List String) (h : fileLines.length ≤ processed) :
    incHandleModified bucketId tableId fileLines processed ok disk =
      ⟨[], processed, none, false, disk⟩ := by
  simp [incHandleModified, readNewLines, h]

/-- The stored watermark after a successful incremental load is the
file's total line count. -/
theorem incHandleModified_processed_of_ok (bucketId tableId : String)
    (fileLines : List String) (processed : Nat) (disk : List String) :
    fileLines.length ≤
      (incHandleModified bucketId tableId fileLines processed true disk).processed ∧
    processed ≤
      (incHandleModified bucketId tableId fileLines processed true disk).processed := by
  by_cases h : fileLines.length ≤ processed
  · rw [incHandleModified_noop bucketId tableId fileLines processed true disk h]
    exact ⟨h, le_refl _⟩
  · have hlt : processed < fileLines.length := Nat.lt_of_not_le h
    have hne : ((fileLines.drop processed).map (fun l => l ++ "\n")).isEmpty = false := by
      simp [List.isEmpty_iff, List.drop_eq_nil_iff]
      omega
    simp [incHandleModified, readNewLines, Nat.not_le.2 hlt, hne]
    omega

/-- C6: incremental watermark idempotence.  After one
`handle_modified` that completed normally, a second `handle_modified`
without file growth makes no `load_table` call and leaves the watermark
unchanged; and whenever `total <= processed_line_count` the invocation
is a no-op. -/
theorem incremental_watermark_idempotent (bucketId tableId : String)
    (fileLines : List String) (processed : Nat) (ok₂ : Bool)
    (disk₁ disk₂ : List String) :
    ((incHandleModified bucketId tableId fileLines
        (incHandleModified bucketId tableId fileLines processed true disk₁).processed
        ok₂ disk₂).calls = [] ∧
     (incHandleModified bucketId tableId fileLines
        (incHandleModified bucketId tableId fileLines processed true disk₁).processed
        ok₂ disk₂).processed =
      (incHandleModified bucketId tableId fileLines processed true disk₁).processed) ∧
    (fileLines.length ≤ processed →
      incHandleModified bucketId tableId fileLines processed ok₂ disk₂ =
        ⟨[], processed, none, false, disk₂⟩) := by
  refine ⟨?_, fun h => incHandleModified_noop _ _ _ _ _ _ h⟩
  have h1 := (incHandleModified_processed_of_ok bucketId tableId fileLines
    processed disk₁).1
  rw [incHandleModified_noop bucketId tableId fileLines _ ok₂ disk₂ h1]
  exact ⟨rfl, rfl⟩

/-- C6 witness: `incremental_watermark_idempotent` at a two-line file
with watermark 0, and the no-op part at watermark 5. -/
theorem incremental_watermark_idempotent_witness :
    (incHandleModified "in.c-shop" "sales" ["h", "r1"]
        (incHandleModified "in.c-shop" "sales" ["h", "r1"] 0 true []).processed
        true []).calls = [] ∧
    incHandleModified "in.c-shop" "sales" ["h", "r1"] 5 false [] =
      ⟨[], 5, none, false, []⟩ :=
  ⟨(incremental_watermark_idempotent "in.c-shop" "sales" ["h", "r1"]
      0 true [] []).1.1,
   (incremental_watermark_idempotent "in.c-shop" "sales" ["h", "r1"]
      5 false [] []).2 (by decide)⟩

/-- C8: every handler invocation that created a temp artifact deletes
it on both exit paths: the compressed copy made by
`_handle_file_created` is gone from disk whether `create_table`
succeeded or raised, and the incremental row-slice made by
`IncrementalHandler.handle_modified` is gone whether `load_table`
succeeded or raised. -/
theorem temp_artifact_always_deleted :
    (∀ (remoteOk : Bool) (disk : List String),
      tempGzName ∉ (watcherCreatedFinalDisk true remoteOk disk).2) ∧
    (∀ (bucketId tableId : String) (fileLines : List String)
        (processed : Nat) (remoteOk : Bool) (disk : List String),
      processed < fileLines.length →
      tempSliceName ∉
        (incHandleModified bucketId tableId fileLines processed remoteOk disk).disk) := by
  constructor
  · intro remoteOk disk
    cases remoteOk <;> simp [watcherCreatedFinalDisk, List.mem_filter]
  · intro bucketId tableId fileLines processed remoteOk disk hlt
    have hne : ((fileLines.drop processed).map (fun l => l ++ "\n")).isEmpty = false := by
      simp [List.isEmpty_iff, List.drop_eq_nil_iff]
      omega
    simp [incHandleModified, readNewLines, Nat.not_le.2 hlt, hne, List.mem_filter]

/-- C8 witness: both parts of `temp_artifact_always_deleted` at concrete
inputs. -/
theorem temp_artifact_always_deleted_witness :
    tempGzName ∉ (watcherCreatedFinalDisk true false ["/data/a.csv"]).2 ∧
    tempSliceName ∉
      (incHandleModified "in.c-shop" "sales" ["id", "1"] 1 false []).disk :=
  ⟨temp_artifact_always_deleted.1 false ["/data/a.csv"],
   temp_artifact_always_deleted.2 "in.c-shop" "sales" ["id", "1"] 1 false []
     (by decide)⟩

/-- When the initial delay already respects the ceiling and the backoff
factor is nonnegative, the stepped delay sequence has the closed form
`min (initial * backoff ^ k) maxDelay`. -/
theorem delaySeq_closed_form (i b M : ℚ) (hi0 : 0 ≤ i) (hiM : i ≤ M)
    (hb : 0 ≤ b) (k : Nat) :
    delaySeq i b M k = min (i * b ^ k) M := by
  induction k with
  | zero => simp [delaySeq, min_eq_left hiM]
  | succ m ih =>
    rw [delaySeq, ih]
    by_cases hc : i * b ^ m ≤ M
    · rw [min_eq_left hc, pow_succ, ← mul_assoc]
    · push_neg at hc
      have hM0 : 0 ≤ M := le_trans hi0 hiM
      have hb1 : 1 < b := by
        by_contra hble
        push_neg at hble
        have : i * b ^ m ≤ i * 1 :=
          mul_le_mul_of_nonneg_left (pow_le_one₀ hb hble) hi0
        rw [mul_one] at this
        exact absurd (le_trans this hiM) (not_le.2 hc)
      have h1 : M ≤ M * b := le_mul_of_one_le_right hM0 (le_of_lt hb1)
      have h2 : M ≤ i * b ^ (m + 1) := by
        rw [pow_succ, ← mul_assoc]
        calc M ≤ M * b := h1
          _ ≤ i * b ^ m * b :=
            mul_le_mul_of_nonneg_right (le_of_lt hc) (le_trans zero_le_one (le_of_lt hb1))
      rw [min_eq_right (le_of_lt hc), min_eq_right h1, min_eq_right h2]

/-- One update of the delay register shifts the delay sequence by one. -/
theorem delaySeq_shift (d b M : ℚ) (k : Nat) :
    delaySeq (min (d * b) M) b M k = delaySeq d b M (k + 1) := by
  induction k generalizing d with
  | zero => simp [delaySeq]
  | succ m ih =>
    show min (delaySeq (min (d * b) M) b M m * b) M = delaySeq d b M (m + 1 + 1)
    rw [ih d]
    rfl

/-- The retry loop on an operation that fails its first `n` attempts
(counting from index `a`) and succeeds on attempt `a + n`, with `n + 1`
attempts remaining: it returns the success value, warns once per failure
with the delay about to be slept, and sleeps the stepped delays. -/
theorem withRetriesGo_fail_then_ok {E A : Type} (op : Nat → Except E A)
    (b M : ℚ) (err : Nat → E) (v : A) :
    ∀ (n a : Nat) (d : ℚ) (last : Option E),
      (∀ k, k < n → op (a + k) = .error (err (a + k))) →
      op (a + n) = .ok v →
      withRetriesGo op b M true a (n + 1) d last =
        ⟨.ok v,
         (List.range n).map (fun k => (a + k + 1, err (a + k), delaySeq d b M k)),
         (List.range n).map (fun k => delaySeq d b M k)⟩ := by
  intro n
  induction n with
  | zero =>
    intro a d last _ hok
    rw [withRetriesGo]
    rw [show a + 0 = a from rfl] at hok
    rw [hok]
    simp
  | succ m ih =>
    intro a d last hfail hok
    have h0 : op a = .error (err a) := by
      have := hfail 0 (Nat.succ_pos m)
      simpa using this
    rw [withRetriesGo, h0]
    simp only [Nat.succ_ne_zero, if_false]
    have hfail' : ∀ k, k < m → op (a + 1 + k) = .error (err (a + 1 + k)) := by
      intro k hk
      have := hfail (k + 1) (Nat.succ_lt_succ hk)
      rwa [show a + (k + 1) = a + 1 + k by omega] at this
    have hok' : op (a + 1 + m) = .ok v := by
      rwa [show a + (m + 1) = a + 1 + m by omega] at hok
    rw [ih (a + 1) (min (d * b) M) (some (err a)) hfail' hok']
    have harg : ∀ k : Nat, a + 1 + k = a + (k + 1) := fun k => by omega
    have hmapw :
        List.map (fun k => (a + 1 + k + 1, err (a + 1 + k),
            delaySeq (min (d * b) M) b M k)) (List.range m) =
          List.map ((fun k => (a + k + 1, err (a + k), delaySeq d b M k)) ∘
            Nat.succ) (List.range m) := by
      refine List.map_congr_left fun k _ => ?_
      simp only [Function.comp_apply, delaySeq_shift, harg k, Nat.succ_eq_add_one]
    have hmaps :
        List.map (fun k => delaySeq (min (d * b) M) b M k) (List.range m) =
          List.map ((fun k => delaySeq d b M k) ∘ Nat.succ) (List.range m) := by
      refine List.map_congr_left fun k _ => ?_
      simp only [Function.comp_apply, delaySeq_shift, Nat.succ_eq_add_one]
    rw [List.range_succ_eq_map, List.map_cons, List.map_cons, List.map_map,
      List.map_map, ← hmapw, ← hmaps]
    simp [delaySeq]

/-- C3 (counterexample): with `max_attempts = 2`, `initial_delay = 50`,
`max_delay = 30`, `backoff_factor = 2`, an operation failing once then
succeeding sleeps `50` before the final attempt — the code never clamps
the very first delay — while the claim's closed form demands
`min (50 * 2 ^ 0) 30 = 30`. -/
theorem retry_delay_closed_form_counterexample :
    (with_retries (fun k => if k = 0 then Except.error () else Except.ok ())
        ⟨2, 50, 30, 2⟩ true).sleeps = [50] ∧
    ¬((50 : ℚ) = min ((50 : ℚ) * 2 ^ (2 - 2)) 30) := by
  constructor
  · rfl
  · norm_num

/-- C3 (amended): for any policy with `max_attempts ≥ 2`,
`0 ≤ initial_delay ≤ max_delay` and `0 ≤ backoff_factor`, an operation
failing its first `max_attempts - 1` attempts and succeeding on the last
returns the success value; exactly `max_attempts - 1` warnings are
logged, the k-th carrying the 1-based attempt index, the error, and the
delay about to be slept, `min (initial_delay * backoff ^ k) max_delay`;
and the delay slept before the final attempt is
`min (initial_delay * backoff ^ (max_attempts - 2)) max_delay`. -/
theorem retry_fail_then_succeed (E A : Type) (op : Nat → Except E A)
    (p : RetryPolicy) (err : Nat → E) (v : A)
    (hm : 2 ≤ p.maxAttempts)
    (hi0 : 0 ≤ p.initialDelay) (hiM : p.initialDelay ≤ p.maxDelay)
    (hb : 0 ≤ p.backoffFactor)
    (hfail : ∀ k, k < p.maxAttempts - 1 → op k = .error (err k))
    (hok : op (p.maxAttempts - 1) = .ok v) :
    (with_retries op p true).result = .ok v ∧
    (with_retries op p true).warnings =
      (List.range (p.maxAttempts - 1)).map (fun k =>
        (k + 1, err k, min (p.initialDelay * p.backoffFactor ^ k) p.maxDelay)) ∧
    (with_retries op p true).sleeps.length = p.maxAttempts - 1 ∧
    (with_retries op p true).sleeps.getLast? =
      some (min (p.initialDelay * p.backoffFactor ^ (p.maxAttempts - 2))
        p.maxDelay) := by
  obtain ⟨n, hn⟩ : ∃ n, p.maxAttempts - 1 = n + 1 :=
    ⟨p.maxAttempts - 2, by omega⟩
  have hma : p.maxAttempts = (n + 1) + 1 := by omega
  have hgo := withRetriesGo_fail_then_ok op p.backoffFactor p.maxDelay err v
    (n + 1) 0 p.initialDelay none
    (fun k hk => by simpa using hfail k (by omega))
    (by rw [show 0 + (n + 1) = p.maxAttempts - 1 by omega]; exact hok)
  have hwr : with_retries op p true =
      ⟨.ok v,
       (List.range (n + 1)).map (fun k =>
         (0 + k + 1, err (0 + k), delaySeq p.initialDelay p.backoffFactor p.maxDelay k)),
       (List.range (n + 1)).map (fun k =>
         delaySeq p.initialDelay p.backoffFactor p.maxDelay k)⟩ := by
    rw [with_retries, hma]
    exact hgo
  have hds : ∀ k : Nat, delaySeq p.initialDelay p.backoffFactor p.maxDelay k =
      min (p.initialDelay * p.backoffFactor ^ k) p.maxDelay :=
    delaySeq_closed_form p.initialDelay p.backoffFactor p.maxDelay hi0 hiM hb
  refine ⟨by rw [hwr], ?_, ?_, ?_⟩
  · rw [hwr, hn]
    exact List.map_congr_left fun k _ => by rw [hds k]; simp
  · rw [hwr, hn]
    simp
  · have hs : (with_retries op p true).sleeps =
        List.map (fun k => delaySeq p.initialDelay p.backoffFactor p.maxDelay k)
            (List.range n) ++
          [delaySeq p.initialDelay p.backoffFactor p.maxDelay n] := by
      rw [hwr]
      show List.map _ (List.range (n + 1)) = _
      rw [List.range_succ, List.map_append]
      rfl
    rw [hs, List.getLast?_append_of_ne_nil _ (by simp)]
    rw [show p.maxAttempts - 2 = n by omega, ← hds n]
    rfl

/-- C3 witness: `retry_fail_then_succeed` at the policy
`⟨3, 1, 30, 2⟩` and an operation failing attempts 0 and 1 and returning
42 on attempt 2. -/
theorem retry_fail_then_succeed_witness :
    (with_retries (fun k => if k < 2 then Except.error k else Except.ok 42)
        ⟨3, 1, 30, 2⟩ true).result = .ok 42 ∧
    (with_retries (fun k => if k < 2 then Except.error k else Except.ok 42)
        ⟨3, 1, 30, 2⟩ true).warnings =
      (List.range ((⟨3, 1, 30, 2⟩ : RetryPolicy).maxAttempts - 1)).map (fun k =>
        (k + 1, k, min ((1 : ℚ) * 2 ^ k) 30)) ∧
    (with_retries (fun k => if k < 2 then Except.error k else Except.ok 42)
        ⟨3, 1, 30, 2⟩ true).sleeps.length =
      (⟨3, 1, 30, 2⟩ : RetryPolicy).maxAttempts - 1 ∧
    (with_retries (fun k => if k < 2 then Except.error k else Except.ok 42)
        ⟨3, 1, 30, 2⟩ true).sleeps.getLast? =
      some (min ((1 : ℚ) * 2 ^ ((⟨3, 1, 30, 2⟩ : RetryPolicy).maxAttempts - 2)) 30) :=
  retry_fail_then_succeed ℕ ℕ
    (fun k => if k < 2 then Except.error k else Except.ok 42)
    ⟨3, 1, 30, 2⟩ (fun k => k) 42
    (by norm_num) (by norm_num) (by norm_num) (by norm_num)
    (fun k hk => by
      have hk2 : k < 2 := hk
      simp [hk2])
    (by norm_num)

/-- Evaluation of `isRunningFor` on an explicit invocation. -/
theorem isRunningFor_eval (q p : String) (ph : Phase) :
    isRunningFor q ⟨p, ph⟩ =
      (decide (p = q) && decide (ph = Phase.running)) := rfl

/-- The `ite` on a decided false boolean equation. -/
theorem if_bool_false : (if (false = true) then (1 : ℕ) else 0) = 0 := rfl

/-- The `ite` on a decided true boolean equation. -/
theorem if_bool_true : (if (true = true) then (1 : ℕ) else 0) = 1 := rfl

/-- `countP` across a list with a distinguished middle element. -/
theorem countP_middle (l r : List Invoc) (i : Invoc) (p : String) :
    (l ++ i :: r).countP (isRunningFor p) =
      l.countP (isRunningFor p) + r.countP (isRunningFor p) +
        (if isRunningFor p i then 1 else 0) := by
  rw [List.countP_append, List.countP_cons]
  omega

/-- The guard invariant holds initially. -/
theorem guardInv_init (paths : List String) : guardInv (initState paths) := by
  refine ⟨List.nodup_nil, fun p => ?_⟩
  simp [initState, isRunningFor_eval, List.countP_eq_zero]

/-- The guard invariant is preserved by every step. -/
theorem guardInv_step {g g' : GuardState} (hinv : guardInv g)
    (hstep : GuardStep g g') : guardInv g' := by
  obtain ⟨hnd, hcnt⟩ := hinv
  cases hstep with
  | acquireOk l r p s hacq =>
    have hp : p ∉ s := by
      intro hmem
      simp [addToProcessing, hmem] at hacq
    have hs2 : (addToProcessing p s).2 = p :: s := by
      simp [addToProcessing, hp]
    rw [hs2]
    refine ⟨List.nodup_cons.2 ⟨hp, hnd⟩, fun q => ?_⟩
    have hold := hcnt q
    rw [countP_middle] at hold
    rw [countP_middle]
    have hmid_old : isRunningFor q ⟨p, .idle⟩ = false := by
      simp [isRunningFor_eval]
    rw [hmid_old] at hold
    by_cases hq : p = q
    · subst hq
      rw [if_neg hp] at hold
      have hmid_new : isRunningFor p ⟨p, .running⟩ = true := by
        simp [isRunningFor_eval]
      rw [hmid_new, if_pos (List.mem_cons_self p s)]
      rw [if_bool_false] at hold
      rw [if_bool_true]
      omega
    · have hmid_new : isRunningFor q ⟨p, .running⟩ = false := by
        simp [isRunningFor_eval, hq]
      rw [hmid_new,
        if_congr (show q ∈ p :: s ↔ q ∈ s by
          simp only [List.mem_cons]
          exact or_iff_right (fun h => hq h.symm)) rfl rfl]
      exact hold
  | acquireBusy l r p s hacq =>
    refine ⟨hnd, fun q => ?_⟩
    have hold := hcnt q
    rw [countP_middle] at hold
    rw [countP_middle]
    have hmid_old : isRunningFor q ⟨p, .idle⟩ = false := by
      simp [isRunningFor_eval]
    have hmid_new : isRunningFor q ⟨p, .dropped⟩ = false := by
      simp [isRunningFor_eval]
    rw [hmid_old] at hold
    rw [hmid_new]
    exact hold
  | finish l r p s =>
    refine ⟨hnd.erase p, fun q => ?_⟩
    have hold := hcnt q
    rw [countP_middle] at hold
    rw [countP_middle]
    have hmid_new : isRunningFor q ⟨p, .finished⟩ = false := by
      simp [isRunningFor_eval]
    rw [hmid_new]
    by_cases hq : p = q
    · subst hq
      have hmid_old : isRunningFor p ⟨p, .running⟩ = true := by
        simp [isRunningFor_eval]
      rw [hmid_old] at hold
      rw [if_bool_true] at hold
      have hmem : p ∈ s := by
        by_contra hns
        rw [if_neg hns] at hold
        omega
      rw [if_pos hmem] at hold
      rw [if_bool_false]
      rw [removeFromProcessing,
        if_neg (by simp [List.Nodup.mem_erase_iff hnd])]
      omega
    · have hmid_old : isRunningFor q ⟨p, .running⟩ = false := by
        simp [isRunningFor_eval, hq]
      rw [hmid_old] at hold
      rw [removeFromProcessing,
        if_congr (List.mem_erase_of_ne (fun h => hq h.symm)) rfl rfl]
      exact hold

/-- The guard invariant holds in every reachable state. -/
theorem guardInv_reach (paths : List String) (g : GuardState)
    (h : GuardReach (initState paths) g) : guardInv g := by
  induction h with
  | refl => exact guardInv_init paths
  | tail _ hstep ih => exact guardInv_step ih hstep

/-- C1: per-path single flight.  In every state reachable from an
initial batch of events, at most one pipeline invocation per path is
running; `_add_to_processing` returns `false` (dropping the event)
whenever the path is already held; and a path with no running
invocation is absent from the processing set. -/
theorem guard_single_flight (paths : List String) (g : GuardState)
    (h : GuardReach (initState paths) g) :
    (∀ p, g.procs.countP (isRunningFor p) ≤ 1) ∧
    (∀ p s, p ∈ s → addToProcessing p s = (false, s)) ∧
    (∀ p, g.procs.countP (isRunningFor p) = 0 → p ∉ g.processing) := by
  have hinv := guardInv_reach paths g h
  refine ⟨fun p => ?_, fun p s hmem => by simp [addToProcessing, hmem],
    fun p hz hmem => ?_⟩
  · rw [hinv.2 p]
    split <;> omega
  · have hc := hinv.2 p
    rw [if_pos hmem] at hc
    omega

/-- C1 witness: after one genuine acquisition among two events for path
`"a"`, the reached state has one running invocation, and a second
`_add_to_processing` for `"a"` returns `false`. -/
theorem guard_single_flight_witness :
    (GuardState.mk [⟨"a", .running⟩, ⟨"a", .idle⟩] ["a"]).procs.countP
        (isRunningFor "a") ≤ 1 ∧
    addToProcessing "a" ["a"] = (false, ["a"]) :=
  have hreach : GuardReach (initState ["a", "a"])
      ⟨[⟨"a", .running⟩, ⟨"a", .idle⟩], ["a"]⟩ :=
    GuardReach.tail (GuardReach.refl _)
      (GuardStep.acquireOk [] [⟨"a", .idle⟩] "a" [] (by decide))
  ⟨(guard_single_flight ["a", "a"]
      ⟨[⟨"a", .running⟩, ⟨"a", .idle⟩], ["a"]⟩ hreach).1 "a",
   (guard_single_flight ["a", "a"]
      ⟨[⟨"a", .running⟩, ⟨"a", .idle⟩], ["a"]⟩ hreach).2.1 "a" ["a"]
     (by decide)⟩

end KbcDaemon
